import Mathlib

/-!
Shallow embedding of the agent loop and skill dispatcher of `src/agent.py`
(`Agent.run`, `SkillDispatcher.call`, the `_ACTION_RE`, `_FINAL_RE` and
thought regexes, the `Step`/`AgentResult` data model, and the prompt
template).  Strings are modelled as `List Char`.  Whitespace (`\s` in the
Python regexes, and `str.strip`) is modelled by the six ASCII whitespace
characters; word characters (`\w`) by ASCII alphanumerics plus underscore,
which covers every tool-name token the system produces.
-/

set_option maxRecDepth 10000

namespace AgentPy

/-- Characters matched by the regex class `\s` and stripped by `str.strip()`
(ASCII fragment: space, tab, newline, carriage return, vertical tab, form feed). -/
def isSpaceChar (c : Char) : Bool :=
  c = ' ' || c = '\t' || c = '\n' || c = '\r' || c = '\x0b' || c = '\x0c'

/-- Characters matched by the regex class `\w` (ASCII fragment). -/
def isWordChar (c : Char) : Bool :=
  c.isAlphanum || c = '_'

/-- Python `str.strip()`: remove leading and trailing whitespace. -/
def stripChars (s : List Char) : List Char :=
  ((s.dropWhile isSpaceChar).reverse.dropWhile isSpaceChar).reverse

/-- The literal anchor of `_FINAL_RE = re.compile(r"Final answer:\s*(.+)", re.DOTALL)`. -/
def finalLit : List Char :=
  ['F', 'i', 'n', 'a', 'l', ' ', 'a', 'n', 's', 'w', 'e', 'r', ':']

/-- The literal anchor of `_ACTION_RE` (`r"Action:\s*(\w+)\((\{.*?\})\)"`, DOTALL). -/
def actionLit : List Char := ['A', 'c', 't', 'i', 'o', 'n', ':']

/-- The literal anchor of the thought regex `r"Thought:\s*(.+?)(?:\n|$)"`. -/
def thoughtLit : List Char := ['T', 'h', 'o', 'u', 'g', 'h', 't', ':']

/-- Search semantics of `_FINAL_RE.search(response)`: find the leftmost
occurrence of `Final answer:` that is followed by at least one character
(`\s*` can match the empty string, `(.+)` with DOTALL needs one character of
any kind), and return the full remainder of the text after the literal.
The capture group is recovered from this remainder by `finalGroup`. -/
def finalSearch : List Char → Option (List Char)
  | [] => none
  | c :: cs =>
      if finalLit.isPrefixOf (c :: cs) && !((c :: cs).drop finalLit.length).isEmpty then
        some ((c :: cs).drop finalLit.length)
      else finalSearch cs

/-- Capture group 1 of `_FINAL_RE` given the (nonempty) remainder after the
literal: greedy `\s*` consumes the maximal whitespace prefix and greedy
`(.+)` (DOTALL) the rest; when the remainder is all whitespace, `\s*`
backtracks one character so that `(.+)` captures exactly the last character. -/
def finalGroup (r : List Char) : List Char :=
  let t := r.dropWhile isSpaceChar
  if t.isEmpty then r.drop (r.length - 1) else t

/-- Scan of the lazy tail `.*?\}\)` of `_ACTION_RE`: return the characters
consumed by `.*?` up to (excluding) the first position holding `}`
immediately followed by `)`; `none` when no such position exists. -/
def findClose : List Char → Option (List Char)
  | [] => none
  | c :: cs =>
      if c = '}' && cs.head? = some ')' then some []
      else (findClose cs).map (fun t => c :: t)

/-- Whether the two-character sequence `})` occurs anywhere in the list. -/
def containsCloseSeq : List Char → Bool
  | [] => false
  | c :: cs => (c = '}' && cs.head? = some ')') || containsCloseSeq cs

/-- Attempt of `_ACTION_RE` at one start position, given the text after the
literal `Action:`.  `\s*` (greedy) and `\w+` (greedy) are over disjoint
character classes, so no backtracking between them can succeed and the match
is deterministic: skip the maximal whitespace run, take the maximal nonempty
word-character run as group 1, require `(` then `{` immediately after, and
let the lazy `.*?\}\)` stop at the first `}` followed by `)`.  Group 2 is
the brace-delimited text `{...}`. -/
def actionAttempt (s : List Char) : Option (List Char × List Char) :=
  let s1 := s.dropWhile isSpaceChar
  let name := s1.takeWhile isWordChar
  let s2 := s1.dropWhile isWordChar
  if name.isEmpty then none
  else
    match s2 with
    | a :: b :: rest =>
        if a = '(' && b = '\x7b' then
          (findClose rest).map (fun inner => (name, '\x7b' :: (inner ++ ['\x7d'])))
        else none
    | _ => none

/-- Search semantics of `_ACTION_RE.search(response)`: try the pattern at
every start position from the left, returning the first successful
(group 1, group 2) pair. -/
def actionSearch : List Char → Option (List Char × List Char)
  | [] => none
  | c :: cs =>
      match (if actionLit.isPrefixOf (c :: cs) then
               actionAttempt ((c :: cs).drop actionLit.length)
             else none) with
      | some r => some r
      | none => actionSearch cs

/-- Capture group 1 of the thought regex `Thought:\s*(.+?)(?:\n|$)` at one
occurrence, given the remainder after the literal.  Greedy `\s*` takes the
maximal whitespace prefix; if a non-whitespace character follows, the lazy
`(.+?)` captures up to (excluding) the first newline or the end of text.
When the remainder is entirely whitespace, backtracking of `\s*` makes the
group capture exactly the last character that is not a newline (the
following characters, all newlines, satisfy `(?:\n|$)`); if every character
is a newline the attempt fails. -/
def thoughtGroupAt (r : List Char) : Option (List Char) :=
  let t := r.dropWhile isSpaceChar
  if !t.isEmpty then some (t.takeWhile (fun c => !(c = '\n')))
  else
    match r.reverse.dropWhile (fun c => c = '\n') with
    | [] => none
    | c :: _ => some [c]

/-- Search semantics of `re.search(r"Thought:\s*(.+?)(?:\n|$)", response)`. -/
def thoughtSearch : List Char → Option (List Char)
  | [] => none
  | c :: cs =>
      match (if thoughtLit.isPrefixOf (c :: cs) then
               thoughtGroupAt ((c :: cs).drop thoughtLit.length)
             else none) with
      | some g => some g
      | none => thoughtSearch cs

end AgentPy



namespace AgentPy

/-- JSON values, as produced by `json.loads` for the action payload
(numbers modelled by integers; no claim depends on numeric content). -/
inductive Json where
  | null : Json
  | bool : Bool → Json
  | num : Int → Json
  | str : List Char → Json
  | arr : List Json → Json
  | obj : List (List Char × Json) → Json

/-- Escape of one character inside a JSON string literal (the characters
needing escapes in the claims are quote and backslash; common control
characters are included for completeness). -/
def escChar (c : Char) : List Char :=
  if c = '\x22' then ['\\', '\x22']
  else if c = '\\' then ['\\', '\\']
  else if c = '\n' then ['\\', 'n']
  else if c = '\t' then ['\\', 't']
  else if c = '\r' then ['\\', 'r']
  else [c]

/-- JSON string literal text for the character list `s`. -/
def renderString (s : List Char) : List Char :=
  '\x22' :: ((s.map escChar).flatten ++ ['\x22'])

mutual

/-- Canonical JSON text of a value, with the separators `", "` and `": "`
used by `json.dumps`; `render (Json.obj fs)` is a syntactically complete
JSON object literal. -/
def render : Json → List Char
  | .null => "null".toList
  | .bool true => "true".toList
  | .bool false => "false".toList
  | .num n => (toString n).toList
  | .str s => renderString s
  | .arr xs => '[' :: (renderElems xs ++ [']'])
  | .obj fs => '\x7b' :: (renderFields fs ++ ['\x7d'])

/-- Comma-separated rendering of array elements. -/
def renderElems : List Json → List Char
  | [] => []
  | [x] => render x
  | x :: y :: xs => render x ++ ',' :: ' ' :: renderElems (y :: xs)

/-- Comma-separated rendering of object fields (`"key": value`). -/
def renderFields : List (List Char × Json) → List Char
  | [] => []
  | [(k, v)] => renderString k ++ ':' :: ' ' :: render v
  | (k, v) :: f :: fs => renderString k ++ ':' :: ' ' :: render v ++ ',' :: ' ' :: renderFields (f :: fs)

end

/-- Outcome of executing a skill body once keyword binding succeeded: a
result string, or a raised Python exception carrying its type (whether it
is a `TypeError`) and its message. -/
inductive RunOutcome where
  | ok : List Char → RunOutcome
  | raised : Bool → List Char → RunOutcome

/-- Keyword-parameter signature of a skill `run` method: required
parameter names and names of parameters with default values. -/
structure SkillSig where
  required : List (List Char)
  optional : List (List Char)

/-- Python keyword binding for `skill.run(**tool_input)`: binding succeeds
iff every required parameter name is supplied and every supplied key names
a declared parameter (missing required key, unexpected key and wrong arity
all raise `TypeError` in CPython). -/
def bindOk (sig : SkillSig) (kwargs : List (List Char × Json)) : Bool :=
  sig.required.all (fun p => (kwargs.map Prod.fst).contains p) &&
  kwargs.all (fun kv => sig.required.contains kv.1 || sig.optional.contains kv.1)

/-- Skill interface as the dispatcher consumes it (duck-typed object with
`name`, `description` and `run(**kwargs)`): keyword binding per `sig`
(CPython generates the `TypeError` message, modelled by `bindErr`), then a
body that returns a string or raises. -/
structure Skill where
  name : List Char
  description : List Char
  sig : SkillSig
  bindErr : List (List Char × Json) → List Char
  body : List (List Char × Json) → RunOutcome

/-- Semantics of `skill.run(**kwargs)`: a binding mismatch raises
`TypeError` before the body runs; otherwise the body runs. -/
def Skill.run (s : Skill) (kwargs : List (List Char × Json)) : RunOutcome :=
  if bindOk s.sig kwargs then s.body kwargs else .raised true (s.bindErr kwargs)

/-- Python `repr` of a string, for names without quotes, backslashes or
control characters (every tool name the agent produces is a `\w+` token). -/
def pyRepr (s : List Char) : List Char :=
  '\'' :: (s ++ ['\''])

/-- Python `", ".join`, `"\n".join`: join with a separator. -/
def joinSep (sep : List Char) : List (List Char) → List Char
  | [] => []
  | [x] => x
  | x :: y :: xs => x ++ sep ++ joinSep sep (y :: xs)

/-- One assignment step of the dict comprehension
`\x7bs.name: s for s in skills\x7d`: Python dicts keep the insertion
position of the first occurrence of a key and overwrite its value. -/
def insertSkill (d : List (List Char × Skill)) (s : Skill) : List (List Char × Skill) :=
  if d.any (fun kv => kv.1 = s.name) then
    d.map (fun kv => if kv.1 = s.name then (kv.1, s) else kv)
  else d ++ [(s.name, s)]

/-- The dispatcher registry `self._skills`, built once in
`SkillDispatcher.__init__`. -/
def buildRegistry (skills : List Skill) : List (List Char × Skill) :=
  skills.foldl insertSkill []

/-- Python `self._skills.get(tool)` on the built dict (keys are unique by
construction). -/
def lookupTool (registry : List (List Char × Skill)) (tool : List Char) : Option Skill :=
  (registry.find? (fun kv => kv.1 = tool)).map Prod.snd

/-- Message `f"Error: unknown tool \x7btool!r\x7d. Available: \x7bavailable\x7d"`. -/
def unknownToolMsg (registry : List (List Char × Skill)) (tool : List Char) : List Char :=
  "Error: unknown tool ".toList ++ pyRepr tool ++ ". Available: ".toList ++
    joinSep ", ".toList (registry.map Prod.fst)

/-- Message `f"Error: bad arguments for \x7btool!r\x7d – \x7bexc\x7d"`. -/
def badArgsMsg (tool msg : List Char) : List Char :=
  "Error: bad arguments for ".toList ++ pyRepr tool ++ " – ".toList ++ msg

/-- Message `f"Error: \x7bexc\x7d"`. -/
def plainErrMsg (msg : List Char) : List Char :=
  "Error: ".toList ++ msg

/-- Embedding of `SkillDispatcher.call`: unknown tools produce the
`unknown tool` message; a raised `TypeError` (whatever raised it) is caught
by the first handler and produces the `bad arguments` message; any other
exception is caught by the second handler; a normal result is returned
verbatim.  The function is total: no exception propagates to the caller. -/
def SkillDispatcher.call (registry : List (List Char × Skill)) (tool : List Char)
    (tool_input : List (List Char × Json)) : List Char :=
  match lookupTool registry tool with
  | none => unknownToolMsg registry tool
  | some skill =>
      match skill.run tool_input with
      | .ok r => r
      | .raised true m => badArgsMsg tool m
      | .raised false m => plainErrMsg m

/-- Embedding of `SkillDispatcher.tool_descriptions`. -/
def tool_descriptions (registry : List (List Char × Skill)) : List Char :=
  joinSep ['\n'] (registry.map (fun kv => "- ".toList ++ kv.1 ++ ": ".toList ++ kv.2.description))

end AgentPy

namespace AgentPy

/-- One iteration of the ReAct loop (dataclass `Step`). -/
structure Step where
  thought : List Char
  tool : List Char
  tool_input : List (List Char × Json)
  observation : List Char

/-- Final result returned by `Agent.run` (dataclass `AgentResult`). -/
structure AgentResult where
  answer : List Char
  steps : List Step
  success : Bool

/-- The fixed answer returned when the loop ends without a final answer. -/
def limitAnswer : List Char :=
  "Agent could not complete the task within the step limit.".toList

/-- Text prefix of `f"Error: could not parse tool input – \x7bexc\x7d"`. -/
def parseErrLit : List Char :=
  "Error: could not parse tool input – ".toList

/-- The literal `"\nObservation: "` inserted between response and
observation when the prompt buffer grows. -/
def obsMarker : List Char := "\nObservation: ".toList

/-- Text appended to the prompt buffer by one action turn:
`prompt += f"\n\x7bresponse\x7d\nObservation: \x7bobservation\x7d\n"`. -/
def turnText (response observation : List Char) : List Char :=
  '\n' :: (response ++ obsMarker ++ observation ++ ['\n'])

/-- Observation of one action turn: parse the captured payload with
`json.loads` (modelled by the parameter `jparse`, whose error carries the
`JSONDecodeError` message); on success dispatch to the skill, on failure
produce the parse-error observation without invoking any skill. -/
def obsFor (registry : List (List Char × Skill))
    (jparse : List Char → Except (List Char) (List (List Char × Json)))
    (tool payload : List Char) : List Char :=
  match jparse payload with
  | .ok j => SkillDispatcher.call registry tool j
  | .error e => parseErrLit ++ e

/-- The `tool_input` recorded in the Step: the parsed mapping, or the empty
mapping when the payload failed to parse. -/
def inputFor (jparse : List Char → Except (List Char) (List (List Char × Json)))
    (payload : List Char) : List (List Char × Json) :=
  match jparse payload with
  | .ok j => j
  | .error _ => []

/-- The `thought` recorded in the Step: the stripped capture of the thought
regex, or the empty string when it does not match. -/
def thoughtFor (response : List Char) : List Char :=
  match thoughtSearch response with
  | some g => stripChars g
  | none => []

/-- The Step appended for one action turn. -/
def mkStep (registry : List (List Char × Skill))
    (jparse : List Char → Except (List Char) (List (List Char × Json)))
    (response tool payload : List Char) : Step :=
  ⟨thoughtFor response, tool, inputFor jparse payload, obsFor registry jparse tool payload⟩

/-- Embedding of the `for _ in range(self._max_steps)` loop body of
`Agent.run`: call the model, check the final-answer regex first, else the
action regex (appending a Step and growing the prompt buffer before the
next iteration), else exit; when the fuel is exhausted or the response was
unparseable, return the fixed failure result with the accumulated steps. -/
def runLoop (llm : List Char → List Char) (registry : List (List Char × Skill))
    (jparse : List Char → Except (List Char) (List (List Char × Json))) :
    Nat → List Char → List Step → AgentResult
  | 0, _, steps => ⟨limitAnswer, steps, false⟩
  | n + 1, prompt, steps =>
      match finalSearch (llm prompt) with
      | some rest => ⟨stripChars (finalGroup rest), steps, true⟩
      | none =>
          match actionSearch (llm prompt) with
          | some (tool, payload) =>
              runLoop llm registry jparse n
                (prompt ++ turnText (llm prompt) (obsFor registry jparse tool payload))
                (steps ++ [mkStep registry jparse (llm prompt) tool payload])
          | none => ⟨limitAnswer, steps, false⟩

/-- The `_SYSTEM_PROMPT` template of `agent.py` with `\x7btools\x7d` and
`\x7btask\x7d` substituted (the doubled braces of the template render as
literal braces). -/
def systemPromptText (tools task : List Char) : List Char :=
  "You are a capable AI agent. Use the tools below to complete the task.\n\nAvailable tools:\n".toList
    ++ tools
    ++ "\n\nFormat each step as:\n  Thought: <your reasoning>\n  Action: <tool_name>(\x7b\x22key\x22: \x22value\x22\x7d)\n\nWhen you have the final answer:\n  Final answer: <answer>\n\nTask: ".toList
    ++ task ++ ['\n']

/-- The initial prompt built by `Agent.run` from the template, the
dispatcher tool descriptions and the task. -/
def initialPrompt (skills : List Skill) (task : List Char) : List Char :=
  systemPromptText (tool_descriptions (buildRegistry skills)) task

/-- Embedding of `Agent.run(task)`: `max_steps` is stored unvalidated by
`Agent.__init__` (an `int`, possibly nonpositive; `range(n)` is empty for
`n ≤ 0`, hence the `Int.toNat` fuel). -/
def Agent.run (llm : List Char → List Char) (skills : List Skill)
    (jparse : List Char → Except (List Char) (List (List Char × Json)))
    (max_steps : Int) (task : List Char) : AgentResult :=
  runLoop llm (buildRegistry skills) jparse max_steps.toNat (initialPrompt skills task) []

end AgentPy

namespace AgentPy

/-- Steps generated by the loop from a given prompt in `n` iterations, in
chronological order, as long as every response parses as an action (mirrors
the recursion of `runLoop`; the head is the step of the first iteration). -/
def stepsFrom (llm : List Char → List Char) (registry : List (List Char × Skill))
    (jparse : List Char → Except (List Char) (List (List Char × Json))) :
    Nat → List Char → List Step
  | 0, _ => []
  | n + 1, prompt =>
      match actionSearch (llm prompt) with
      | some (tool, payload) =>
          mkStep registry jparse (llm prompt) tool payload ::
            stepsFrom llm registry jparse n
              (prompt ++ turnText (llm prompt) (obsFor registry jparse tool payload))
      | none => []

/-- The prompt buffer at the start of iteration `k` (zero-based) of a run
whose initial buffer is `p0`: a turn whose response contains a final answer
or fails to parse leaves the buffer unchanged, an action turn appends its
turn text. -/
def promptAt (llm : List Char → List Char) (registry : List (List Char × Skill))
    (jparse : List Char → Except (List Char) (List (List Char × Json)))
    (p0 : List Char) : Nat → List Char
  | 0 => p0
  | k + 1 =>
      let p := promptAt llm registry jparse p0 k
      match finalSearch (llm p), actionSearch (llm p) with
      | none, some (tool, payload) => p ++ turnText (llm p) (obsFor registry jparse tool payload)
      | _, _ => p

/-- The (raw response, observation) pairs of the action turns among the
first `k` iterations, in order. -/
def turnsAt (llm : List Char → List Char) (registry : List (List Char × Skill))
    (jparse : List Char → Except (List Char) (List (List Char × Json)))
    (p0 : List Char) : Nat → List (List Char × List Char)
  | 0 => []
  | k + 1 =>
      let p := promptAt llm registry jparse p0 k
      match finalSearch (llm p), actionSearch (llm p) with
      | none, some (tool, payload) =>
          turnsAt llm registry jparse p0 k ++ [(llm p, obsFor registry jparse tool payload)]
      | _, _ => turnsAt llm registry jparse p0 k

/-- The Steps recorded by the action turns among the first `k` iterations,
in order. -/
def stepsAt (llm : List Char → List Char) (registry : List (List Char × Skill))
    (jparse : List Char → Except (List Char) (List (List Char × Json)))
    (p0 : List Char) : Nat → List Step
  | 0 => []
  | k + 1 =>
      let p := promptAt llm registry jparse p0 k
      match finalSearch (llm p), actionSearch (llm p) with
      | none, some (tool, payload) =>
          stepsAt llm registry jparse p0 k ++ [mkStep registry jparse (llm p) tool payload]
      | _, _ => stepsAt llm registry jparse p0 k

/-- Concatenation of the turn texts of a list of (response, observation)
pairs, in order. -/
def joinTurns (ts : List (List Char × List Char)) : List Char :=
  (ts.map (fun t => turnText t.1 t.2)).flatten

/-- Iteration `k` is an action turn: its response contains no final-answer
match and does match the action pattern. -/
def isActionTurnAt (llm : List Char → List Char) (registry : List (List Char × Skill))
    (jparse : List Char → Except (List Char) (List (List Char × Json)))
    (p0 : List Char) (k : Nat) : Prop :=
  finalSearch (llm (promptAt llm registry jparse p0 k)) = none ∧
    ∃ tp, actionSearch (llm (promptAt llm registry jparse p0 k)) = some tp

/-- Concrete model response containing both an action pattern and a
final-answer pattern (used by witnesses). -/
def respBoth : List Char := "Action: t(\x7b\x7d)\nFinal answer:  42  ".toList

/-- Concrete model response containing only an action pattern. -/
def respAct : List Char := "Action: t(\x7bx\x7d)".toList

/-- Concrete JSON-parse stub that fails on every input with message `x`
(used by witnesses; `json.loads` is a library boundary, passed as the
`jparse` parameter). -/
def jparseNone : List Char → Except (List Char) (List (List Char × Json)) :=
  fun _ => .error "x".toList

/-- Concrete skill whose body raises `TypeError("boom")` for a reason that
is not an argument mismatch: its signature accepts the empty mapping. -/
def tSkill : Skill :=
  ⟨"t".toList, "d".toList, ⟨[], []⟩, fun _ => [], fun _ => .raised true "boom".toList⟩

end AgentPy

namespace AgentPy

/-- Helper: a word character is not a whitespace character. -/
theorem word_not_space {c : Char} (h : isWordChar c = true) : isSpaceChar c = false := by
  cases hs : isSpaceChar c
  · rfl
  · exfalso
    simp only [isSpaceChar, Bool.or_eq_true, decide_eq_true_eq] at hs
    rcases hs with ((((rfl | rfl) | rfl) | rfl) | rfl) | rfl <;> exact absurd h (by decide)

/-- Helper: stripping a list of whitespace characters yields the empty list. -/
theorem stripChars_all_space {s : List Char} (h : ∀ c ∈ s, isSpaceChar c = true) :
    stripChars s = [] := by
  have h1 : s.dropWhile isSpaceChar = [] :=
    List.dropWhile_eq_nil_iff.mpr (fun x hx => by simp [h x hx])
  simp [stripChars, h1]

/-- Claim C1: a model response containing a match of the final-answer pattern
(with remainder `r` after the literal) ends the run on that very iteration
with `success = true`, the captured text stripped of surrounding whitespace
as `answer`, and the steps accumulated so far — with no hypothesis on the
action pattern, which may also be present: `runLoop` consults `finalSearch`
before `actionSearch` on every iteration. -/
theorem C1_final_answer_priority (llm : List Char → List Char)
    (registry : List (List Char × Skill))
    (jparse : List Char → Except (List Char) (List (List Char × Json)))
    (n : Nat) (prompt : List Char) (steps : List Step) (r : List Char)
    (h : finalSearch (llm prompt) = some r) :
    runLoop llm registry jparse (n + 1) prompt steps =
      ⟨stripChars (finalGroup r), steps, true⟩ := by
  simp [runLoop, h]

/-- Witness for C1 at a concrete response that contains an action pattern
and a final-answer pattern in the same text. -/
theorem C1_final_answer_priority_witness :
    (actionSearch respBoth).isSome = true ∧
    runLoop (fun _ => respBoth) [] jparseNone 1 [] [] = ⟨"42".toList, [], true⟩ := by
  constructor
  · decide
  · rw [C1_final_answer_priority (fun _ => respBoth) [] jparseNone 0 [] [] "  42  ".toList
      (by decide)]
    rfl

/-- Claim C6: a response matching neither the final-answer pattern nor the action
pattern ends the loop immediately on that iteration, recording no Step and
returning `success = false` with the fixed failure answer; in particular a
run whose very first response is unparseable returns zero Steps. -/
theorem C6_unparseable_response (llm : List Char → List Char) (skills : List Skill)
    (jparse : List Char → Except (List Char) (List (List Char × Json)))
    (response : List Char)
    (hf : finalSearch response = none) (ha : actionSearch response = none) :
    (∀ (n : Nat) (prompt : List Char) (steps : List Step), llm prompt = response →
        runLoop llm (buildRegistry skills) jparse (n + 1) prompt steps =
          ⟨limitAnswer, steps, false⟩) ∧
    (∀ (task : List Char) (ms : Int), 1 ≤ ms →
        llm (initialPrompt skills task) = response →
        Agent.run llm skills jparse ms task = ⟨limitAnswer, [], false⟩) := by
  constructor
  · intro n prompt steps hp
    simp [runLoop, hp, hf, ha]
  · intro task ms hms hp
    unfold Agent.run
    have h0 : 0 < ms.toNat := by omega
    obtain ⟨k, hk⟩ := Nat.exists_eq_add_of_lt h0
    rw [hk]
    simp only [Nat.zero_add]
    simp [runLoop, hp, hf, ha]

/-- Witness for C6 at a concrete unparseable first response. -/
theorem C6_unparseable_response_witness :
    Agent.run (fun _ => "hello".toList) [] jparseNone 10 [] = ⟨limitAnswer, [], false⟩ := by
  exact (C6_unparseable_response (fun _ => "hello".toList) [] jparseNone "hello".toList
    (by decide) (by decide)).2 [] 10 (by decide) rfl

/-- Claim C9: `Agent.__init__` stores `max_steps` unvalidated; for any
`max_steps ≤ 0` the loop `for _ in range(max_steps)` runs zero iterations,
so `run` returns the fixed step-limit answer, zero Steps and
`success = false` — for every model-calling function, which is therefore
never invoked. -/
theorem C9_nonpositive_max_steps (llm : List Char → List Char) (skills : List Skill)
    (jparse : List Char → Except (List Char) (List (List Char × Json)))
    (task : List Char) (ms : Int) (h : ms ≤ 0) :
    Agent.run llm skills jparse ms task = ⟨limitAnswer, [], false⟩ := by
  unfold Agent.run
  have h0 : ms.toNat = 0 := by omega
  rw [h0]
  rfl

/-- Witness for C9 at `max_steps = -3`. -/
theorem C9_nonpositive_max_steps_witness :
    Agent.run (fun _ => respBoth) [] jparseNone (-3) [] = ⟨limitAnswer, [], false⟩ :=
  C9_nonpositive_max_steps (fun _ => respBoth) [] jparseNone [] (-3) (by decide)

/-- Claim C7: dispatching a tool name that is not a key of the registry returns
the `unknown tool` message built from the quoted name and the comma-joined
registered names, and — the embedding being a total function — raises
nothing.  The hypothesis on the characters of `tool` marks the domain on
which `pyRepr` models Python `repr` exactly; every tool name produced by the
action regex is such a `\w+` token. -/
theorem C7_unknown_tool (registry : List (List Char × Skill)) (tool : List Char)
    (tool_input : List (List Char × Json))
    (_hw : ∀ c ∈ tool, isWordChar c = true)
    (h : lookupTool registry tool = none) :
    SkillDispatcher.call registry tool tool_input =
      "Error: unknown tool ".toList ++ pyRepr tool ++ ". Available: ".toList ++
        joinSep ", ".toList (registry.map Prod.fst) := by
  simp [SkillDispatcher.call, h, unknownToolMsg]

/-- Witness for C7: a registry holding only `tSkill`, queried for `nope`. -/
theorem C7_unknown_tool_witness :
    SkillDispatcher.call (buildRegistry [tSkill]) "nope".toList [] =
      "Error: unknown tool 'nope'. Available: t".toList := by
  rw [C7_unknown_tool (buildRegistry [tSkill]) "nope".toList [] (by decide) (by rfl)]
  rfl

end AgentPy

namespace AgentPy

/-- Counterexample to C3 as stated: `tSkill` binds the empty argument
mapping successfully (no argument mismatch) and then raises
`TypeError("boom")` inside its body for a non-argument reason, yet
`SkillDispatcher.call` — whose first `except` clause catches every
`TypeError` — returns the `bad arguments` message rather than the plain
`Error: boom` the claim requires for such exceptions. -/
theorem C3_counterexample :
    bindOk tSkill.sig [] = true ∧
    tSkill.body [] = .raised true "boom".toList ∧
    SkillDispatcher.call (buildRegistry [tSkill]) "t".toList [] =
      badArgsMsg "t".toList "boom".toList ∧
    SkillDispatcher.call (buildRegistry [tSkill]) "t".toList [] ≠
      plainErrMsg "boom".toList := by
  refine ⟨rfl, rfl, rfl, ?_⟩
  decide

/-- Claim C3, amended: for a registered tool, `SkillDispatcher.call` returns the
skill result verbatim on success, returns the `bad arguments` message
whenever the invocation raises a `TypeError` — whether from keyword-binding
mismatch or from the skill body — and returns `Error: <message>` for every
exception that is not a `TypeError`; being a total function it propagates
no exception.  (The claim as stated distinguishes body-raised `TypeError`s
from binding mismatches; the code cannot, as the counterexample shows.) -/
theorem C3_amended_dispatch_wrap (registry : List (List Char × Skill))
    (tool : List Char) (skill : Skill) (tool_input : List (List Char × Json))
    (h : lookupTool registry tool = some skill) :
    (∀ r, skill.run tool_input = .ok r →
        SkillDispatcher.call registry tool tool_input = r) ∧
    (∀ m, skill.run tool_input = .raised true m →
        SkillDispatcher.call registry tool tool_input = badArgsMsg tool m) ∧
    (∀ m, skill.run tool_input = .raised false m →
        SkillDispatcher.call registry tool tool_input = plainErrMsg m) ∧
    (bindOk skill.sig tool_input = false →
        SkillDispatcher.call registry tool tool_input =
          badArgsMsg tool (skill.bindErr tool_input)) := by
  refine ⟨?_, ?_, ?_, ?_⟩
  · intro r hr; simp [SkillDispatcher.call, h, hr]
  · intro m hm; simp [SkillDispatcher.call, h, hm]
  · intro m hm; simp [SkillDispatcher.call, h, hm]
  · intro hb
    have : skill.run tool_input = .raised true (skill.bindErr tool_input) := by
      simp [Skill.run, hb]
    simp [SkillDispatcher.call, h, this]

/-- Witness for the amended C3 at the concrete `tSkill` registry. -/
theorem C3_amended_dispatch_wrap_witness :
    SkillDispatcher.call (buildRegistry [tSkill]) "t".toList
        [("z".toList, Json.null)] =
      badArgsMsg "t".toList (tSkill.bindErr [("z".toList, Json.null)]) := by
  exact (C3_amended_dispatch_wrap (buildRegistry [tSkill]) "t".toList tSkill
    [("z".toList, Json.null)] (by rfl)).2.2.2 (by rfl)

/-- Claim C4: when the response has an action match whose payload fails to parse
as JSON (`jparse` yields an error `e`), the loop appends a Step whose
`tool_input` is the empty mapping and whose observation is the parse-error
message — which starts with `Error: could not parse tool input` — and
continues to the next iteration; the observation is built without
dispatching to any skill (the registry appears on the right-hand side only
inside the continuation of the loop). -/
theorem C4_malformed_payload (llm : List Char → List Char)
    (registry : List (List Char × Skill))
    (jparse : List Char → Except (List Char) (List (List Char × Json)))
    (n : Nat) (prompt : List Char) (steps : List Step)
    (tool payload e : List Char)
    (hf : finalSearch (llm prompt) = none)
    (ha : actionSearch (llm prompt) = some (tool, payload))
    (hj : jparse payload = .error e) :
    runLoop llm registry jparse (n + 1) prompt steps =
      runLoop llm registry jparse n
        (prompt ++ turnText (llm prompt) (parseErrLit ++ e))
        (steps ++ [⟨thoughtFor (llm prompt), tool, [], parseErrLit ++ e⟩]) ∧
    "Error: could not parse tool input".toList.isPrefixOf (parseErrLit ++ e) = true := by
  constructor
  · simp [runLoop, hf, ha, mkStep, inputFor, obsFor, hj]
  · rw [ List.isPrefixOf_iff_prefix]
    have h2 : parseErrLit = "Error: could not parse tool input".toList ++ " – ".toList := by
      decide
    rw [h2, List.append_assoc]
    exact List.prefix_append _ _

/-- Witness for C4 at a concrete action response whose payload the
JSON-parse stub rejects. -/
theorem C4_malformed_payload_witness :
    runLoop (fun _ => respAct) [] jparseNone 1 [] [] =
      ⟨limitAnswer, [⟨[], "t".toList, [], parseErrLit ++ "x".toList⟩], false⟩ ∧
    "Error: could not parse tool input".toList.isPrefixOf
      (parseErrLit ++ "x".toList) = true := by
  have h := C4_malformed_payload (fun _ => respAct) [] jparseNone 0 [] []
    "t".toList "\x7bx\x7d".toList "x".toList (by decide) (by decide) (by rfl)
  refine ⟨?_, h.2⟩
  rw [h.1]
  rfl

end AgentPy

namespace AgentPy

/-- Helper: when every response parses as an action and none contains a
final answer, the loop consumes all its fuel and appends exactly the
chronological `stepsFrom` list. -/
theorem runLoop_all_action (llm : List Char → List Char)
    (registry : List (List Char × Skill))
    (jparse : List Char → Except (List Char) (List (List Char × Json)))
    (hf : ∀ p, finalSearch (llm p) = none)
    (ha : ∀ p, (actionSearch (llm p)).isSome = true) :
    ∀ (n : Nat) (prompt : List Char) (steps : List Step),
      runLoop llm registry jparse n prompt steps =
        ⟨limitAnswer, steps ++ stepsFrom llm registry jparse n prompt, false⟩ := by
  intro n
  induction n with
  | zero => intro prompt steps; simp [runLoop, stepsFrom]
  | succ k ih =>
      intro prompt steps
      obtain ⟨⟨tool, payload⟩, hap⟩ := Option.isSome_iff_exists.mp (ha prompt)
      simp [runLoop, hf prompt, hap, stepsFrom, ih, List.append_assoc]

/-- Helper: under the same hypotheses `stepsFrom` yields one step per
iteration. -/
theorem stepsFrom_length (llm : List Char → List Char)
    (registry : List (List Char × Skill))
    (jparse : List Char → Except (List Char) (List (List Char × Json)))
    (ha : ∀ p, (actionSearch (llm p)).isSome = true) :
    ∀ (n : Nat) (prompt : List Char),
      (stepsFrom llm registry jparse n prompt).length = n := by
  intro n
  induction n with
  | zero => intro prompt; simp [stepsFrom]
  | succ k ih =>
      intro prompt
      obtain ⟨⟨tool, payload⟩, hap⟩ := Option.isSome_iff_exists.mp (ha prompt)
      simp [stepsFrom, hap, ih]

/-- Claim C5: for a model-calling function that on every prompt emits a
well-formed action and never a final answer, `run` with a nonnegative
`max_steps` returns `success = false`, the fixed step-limit answer, and
exactly `max_steps` Steps, namely the chronological list `stepsFrom`
(whose head is the step of the first iteration, each later step generated
from the prompt grown by the preceding turns). -/
theorem C5_step_budget_exhausted (llm : List Char → List Char) (skills : List Skill)
    (jparse : List Char → Except (List Char) (List (List Char × Json)))
    (task : List Char) (ms : Int)
    (hf : ∀ p, finalSearch (llm p) = none)
    (ha : ∀ p, (actionSearch (llm p)).isSome = true)
    (hms : 0 ≤ ms) :
    Agent.run llm skills jparse ms task =
      ⟨limitAnswer,
        stepsFrom llm (buildRegistry skills) jparse ms.toNat (initialPrompt skills task),
        false⟩ ∧
    ((Agent.run llm skills jparse ms task).steps.length : Int) = ms := by
  have h1 := runLoop_all_action llm (buildRegistry skills) jparse hf ha
    ms.toNat (initialPrompt skills task) []
  have h2 := stepsFrom_length llm (buildRegistry skills) jparse ha
    ms.toNat (initialPrompt skills task)
  constructor
  · unfold Agent.run
    rw [h1]
    simp
  · unfold Agent.run
    rw [h1]
    simp [h2]
    omega

/-- Witness for C5 with a scripted model that always answers with the same
action line, run for two steps. -/
theorem C5_step_budget_exhausted_witness :
    ((Agent.run (fun _ => respAct) [] jparseNone 2 []).steps.length : Int) = 2 ∧
    (Agent.run (fun _ => respAct) [] jparseNone 2 []).success = false := by
  have h := C5_step_budget_exhausted (fun _ => respAct) [] jparseNone [] 2
    (fun _ => (by decide : finalSearch respAct = none))
    (fun _ => (by decide : (actionSearch respAct).isSome = true)) (by decide)
  refine ⟨h.2, ?_⟩
  rw [h.1]

end AgentPy

namespace AgentPy

/-- Helper: the prompt buffer at iteration `k` is the initial buffer
followed by the concatenated turn texts of the action turns so far. -/
theorem promptAt_eq_joinTurns (llm : List Char → List Char)
    (registry : List (List Char × Skill))
    (jparse : List Char → Except (List Char) (List (List Char × Json)))
    (p0 : List Char) :
    ∀ k, promptAt llm registry jparse p0 k =
      p0 ++ joinTurns (turnsAt llm registry jparse p0 k) := by
  intro k
  induction k with
  | zero => simp [promptAt, turnsAt, joinTurns]
  | succ k ih =>
      rcases hfs : finalSearch (llm (promptAt llm registry jparse p0 k)) with _ | r
      · rcases has : actionSearch (llm (promptAt llm registry jparse p0 k)) with _ | ⟨tool, payload⟩
        · simp only [promptAt, turnsAt, hfs, has]
          exact ih
        · simp only [promptAt, turnsAt, hfs, has]
          rw [ih]
          simp [joinTurns, List.append_assoc]
      · simp only [promptAt, turnsAt, hfs]
        exact ih

/-- Helper: if the first `k` iterations are action turns, the run is the
run restarted from the iteration-`k` buffer and step list with `k` fewer
fuel units. -/
theorem runLoop_restart (llm : List Char → List Char)
    (registry : List (List Char × Skill))
    (jparse : List Char → Except (List Char) (List (List Char × Json)))
    (p0 : List Char) :
    ∀ (k n : Nat), k ≤ n →
      (∀ j, j < k → isActionTurnAt llm registry jparse p0 j) →
      runLoop llm registry jparse n p0 [] =
        runLoop llm registry jparse (n - k) (promptAt llm registry jparse p0 k)
          (stepsAt llm registry jparse p0 k) := by
  intro k
  induction k with
  | zero => intro n _ _; simp [promptAt, stepsAt]
  | succ k ih =>
      intro n hkn hact
      have hs := ih n (by omega) (fun j hj => hact j (by omega))
      obtain ⟨hfs, ⟨⟨tool, payload⟩, has⟩⟩ := hact k (by omega)
      have hnk : n - k = (n - (k + 1)) + 1 := by omega
      rw [hnk] at hs
      rw [hs]
      have hstep : promptAt llm registry jparse p0 (k + 1) =
          promptAt llm registry jparse p0 k ++
            turnText (llm (promptAt llm registry jparse p0 k))
              (obsFor registry jparse tool payload) := by
        simp only [promptAt, hfs, has]
      have hsteps : stepsAt llm registry jparse p0 (k + 1) =
          stepsAt llm registry jparse p0 k ++
            [mkStep registry jparse (llm (promptAt llm registry jparse p0 k)) tool payload] := by
        simp only [stepsAt, hfs, has]
      rw [hstep, hsteps]
      simp [runLoop, hfs, has]

/-- Claim C8: throughout a run, the prompt buffer of iteration `k` equals the
original preamble (`initialPrompt`) followed by the in-order concatenation
of one (raw response, observation) turn text per action turn among the
first `k` iterations — turns producing a final answer or an unparseable
response append nothing (first conjunct, over the instrumented buffer);
the second conjunct certifies that the instrumented buffer is the buffer
the loop actually carries: whenever the first `k` iterations are action
turns, the run equals the loop restarted from that buffer and the
corresponding step list. -/
theorem C8_prompt_buffer_invariant (llm : List Char → List Char) (skills : List Skill)
    (jparse : List Char → Except (List Char) (List (List Char × Json)))
    (task : List Char) :
    (∀ k, promptAt llm (buildRegistry skills) jparse (initialPrompt skills task) k =
        initialPrompt skills task ++
          joinTurns (turnsAt llm (buildRegistry skills) jparse (initialPrompt skills task) k)) ∧
    (∀ (k n : Nat), k ≤ n →
        (∀ j, j < k →
            isActionTurnAt llm (buildRegistry skills) jparse (initialPrompt skills task) j) →
        Agent.run llm skills jparse (n : Int) task =
          runLoop llm (buildRegistry skills) jparse (n - k)
            (promptAt llm (buildRegistry skills) jparse (initialPrompt skills task) k)
            (stepsAt llm (buildRegistry skills) jparse (initialPrompt skills task) k)) := by
  constructor
  · exact promptAt_eq_joinTurns llm (buildRegistry skills) jparse (initialPrompt skills task)
  · intro k n hkn hact
    have hs := runLoop_restart llm (buildRegistry skills) jparse
      (initialPrompt skills task) k n hkn hact
    unfold Agent.run
    simpa using hs

/-- Witness for C8: one action turn of a concrete scripted model. -/
theorem C8_prompt_buffer_invariant_witness :
    (promptAt (fun _ => respAct) (buildRegistry []) jparseNone (initialPrompt [] []) 1 =
      initialPrompt [] [] ++
        joinTurns (turnsAt (fun _ => respAct) (buildRegistry []) jparseNone
          (initialPrompt [] []) 1)) ∧
    Agent.run (fun _ => respAct) [] jparseNone ((2 : Nat) : Int) [] =
      runLoop (fun _ => respAct) (buildRegistry []) jparseNone 1
        (promptAt (fun _ => respAct) (buildRegistry []) jparseNone (initialPrompt [] []) 1)
        (stepsAt (fun _ => respAct) (buildRegistry []) jparseNone (initialPrompt [] []) 1) := by
  have h := C8_prompt_buffer_invariant (fun _ => respAct) [] jparseNone []
  refine ⟨h.1 1, ?_⟩
  have h2 := h.2 1 2 (by omega) (fun j hj => ?_)
  · simpa using h2
  · have hj0 : j = 0 := by omega
    subst hj0
    exact ⟨(by decide : finalSearch respAct = none),
      ⟨("t".toList, "\x7bx\x7d".toList),
        (by decide : actionSearch respAct = some ("t".toList, "\x7bx\x7d".toList))⟩⟩

end AgentPy

namespace AgentPy

/-- Helper: `takeWhile`/`dropWhile` split an appended list at the first
element falsifying the predicate. -/
theorem takeWhile_all_append (p : Char → Bool) (xs : List Char) (y : Char) (ys : List Char)
    (hxs : ∀ c ∈ xs, p c = true) (hy : p y = false) :
    (xs ++ y :: ys).takeWhile p = xs ∧ (xs ++ y :: ys).dropWhile p = y :: ys := by
  induction xs with
  | nil =>
      constructor
      · simp [List.takeWhile_cons, hy]
      · simp [List.dropWhile_cons, hy]
  | cons a as ih =>
      have ha : p a = true := hxs a (List.mem_cons_self a as)
      have ih2 := ih (fun c hc => hxs c (List.mem_cons_of_mem a hc))
      constructor
      · simp [List.takeWhile_cons, ha, ih2.1]
      · simp [List.dropWhile_cons, ha, ih2.2]

/-- Helper: the lazy scan stops exactly at the appended close-brace when no
`})` sequence occurs before it. -/
theorem findClose_append (mid rest : List Char)
    (h : containsCloseSeq (mid ++ ['\x7d']) = false) :
    findClose (mid ++ '\x7d' :: ')' :: rest) = some mid := by
  induction mid with
  | nil => simp [findClose]
  | cons c cs ih =>
      simp only [List.cons_append, List.append_eq, containsCloseSeq, Bool.or_eq_false_iff,
        List.head?_append] at h
      simp [List.cons_append, List.append_eq, findClose, List.head?_append, h.1, ih h.2]
      intro hc hcs
      rw [hc, hcs] at h
      simp at h

/-- Helper: the action regex succeeds at the first position when the text
starts with the literal and the attempt there succeeds. -/
theorem actionSearch_cons_of_attempt (c : Char) (cs : List Char) (r : List Char × List Char)
    (hpre : actionLit.isPrefixOf (c :: cs) = true)
    (h : actionAttempt ((c :: cs).drop actionLit.length) = some r) :
    actionSearch (c :: cs) = some r := by
  simp only [actionSearch, hpre, if_true, h]

/-- Counterexample to C2 as stated: the payload is the complete JSON object
literal rendering of `\x7b"s": "\x7d)"\x7d` — a one-field object whose
string value contains a brace — yet the parser captures only up to the `\x7d`
inside the string value (the first `\x7d` immediately followed by `)`),
which is a strict prefix of the payload and not the complete object text. -/
theorem C2_counterexample :
    "\x7b\x22s\x22: \x22\x7d)\x22\x7d".toList =
      render (Json.obj [("s".toList, Json.str "\x7d)".toList)]) ∧
    actionSearch "Action: t(\x7b\x22s\x22: \x22\x7d)\x22\x7d)".toList =
      some ("t".toList, "\x7b\x22s\x22: \x22\x7d".toList) ∧
    "\x7b\x22s\x22: \x22\x7d".toList ≠ "\x7b\x22s\x22: \x22\x7d)\x22\x7d".toList := by
  refine ⟨by decide, by decide, by decide⟩

/-- Claim C2, amended: for a response `Action: <name>(<payload>)<rest>`
whose payload is any brace-delimited text `\x7b...\x7d` — in particular any
syntactically complete JSON object literal, including payloads spanning
multiple lines, with non-canonical whitespace, nested braces/arrays, and
string values containing braces — the action parser extracts exactly the
name and exactly the payload text *provided* the payload does not contain
the two-character sequence `\x7d)` before its final brace (in a well-formed
object such a sequence can only occur inside a string value, and then the
lazy capture stops at it, as the counterexample shows). -/
theorem C2_amended_action_capture (name mid rest : List Char)
    (hne : name ≠ [])
    (hword : ∀ c ∈ name, isWordChar c = true)
    (hnc : containsCloseSeq ('\x7b' :: (mid ++ ['\x7d'])) = false) :
    actionSearch (actionLit ++ (' ' :: (name ++ '(' ::
        (('\x7b' :: (mid ++ ['\x7d'])) ++ ')' :: rest)))) =
      some (name, '\x7b' :: (mid ++ ['\x7d'])) := by
  obtain ⟨n0, name', rfl⟩ : ∃ a l, name = a :: l := by
    cases name with
    | nil => exact absurd rfl hne
    | cons a l => exact ⟨a, l, rfl⟩
  apply actionSearch_cons_of_attempt
  · rw [ List.isPrefixOf_iff_prefix]
    exact List.prefix_append _ _
  · show actionAttempt
        (' ' :: (n0 :: name' ++ '(' :: (('\x7b' :: (mid ++ ['\x7d'])) ++ ')' :: rest))) = _
    have hmid : containsCloseSeq (mid ++ ['\x7d']) = false := by
      simpa [containsCloseSeq] using hnc
    have hsp : isSpaceChar ' ' = true := by decide
    have hdrop1 : (' ' :: (n0 :: name' ++ '(' ::
          (('\x7b' :: (mid ++ ['\x7d'])) ++ ')' :: rest))).dropWhile isSpaceChar
        = (n0 :: name' ++ '(' ::
            (('\x7b' :: (mid ++ ['\x7d'])) ++ ')' :: rest)).dropWhile isSpaceChar := by
      simp [List.dropWhile_cons, hsp]
    have hn0 : isSpaceChar n0 = false := word_not_space (hword n0 (List.mem_cons_self n0 name'))
    have hdrop2 : (n0 :: name' ++ '(' ::
          (('\x7b' :: (mid ++ ['\x7d'])) ++ ')' :: rest)).dropWhile isSpaceChar
        = n0 :: name' ++ '(' :: (('\x7b' :: (mid ++ ['\x7d'])) ++ ')' :: rest) := by
      simp [List.dropWhile_cons, hn0]
    have hsplit := takeWhile_all_append isWordChar (n0 :: name') '('
      (('\x7b' :: (mid ++ ['\x7d'])) ++ ')' :: rest) hword (by decide)
    simp only [actionAttempt, hdrop1, hdrop2, hsplit.1, hsplit.2]
    simp only [List.isEmpty_cons, List.cons_append, List.append_assoc,
      List.singleton_append]
    have hfc := findClose_append mid rest hmid
    simp [hfc]

/-- Witness for the amended C2 at a multiline, non-canonically spaced,
nested payload `\x7b"a": 1,<newline>"b": \x7b\x7d\x7d`, which spans two lines,
contains nested braces and has no early `\x7d)` sequence. -/
theorem C2_amended_action_capture_witness :
    actionSearch (actionLit ++ (' ' :: ("calc".toList ++ '(' ::
        (('\x7b' :: ("\x22a\x22: 1,\n\x22b\x22: \x7b\x7d".toList ++ ['\x7d'])) ++ ')' :: [])))) =
      some ("calc".toList,
        '\x7b' :: ("\x22a\x22: 1,\n\x22b\x22: \x7b\x7d".toList ++ ['\x7d'])) := by
  exact C2_amended_action_capture "calc".toList
    "\x22a\x22: 1,\n\x22b\x22: \x7b\x7d".toList []
    (by decide) (by decide) (by decide)

end AgentPy

namespace AgentPy

/-- Helper: the final-answer regex succeeds at the first position when the
text starts with the literal and at least one character follows. -/
theorem finalSearch_cons_found (c : Char) (cs : List Char)
    (hpre : finalLit.isPrefixOf (c :: cs) = true)
    (hne : ((c :: cs).drop finalLit.length).isEmpty = false) :
    finalSearch (c :: cs) = some ((c :: cs).drop finalLit.length) := by
  simp [finalSearch, hpre, hne]

/-- Counterexample to C10 as stated: in the response `Final answer: ` the
marker is followed only by whitespace (a single space), yet the
final-answer pattern DOES match — `\s*` backtracks one character so that
`(.+)` captures the space — and the loop on such a response terminates
with `success = true` and the empty trimmed answer, not with
`success = false` as the claim requires. -/
theorem C10_counterexample :
    finalSearch (finalLit ++ [' ']) = some [' '] ∧
    runLoop (fun _ => finalLit ++ [' ']) [] jparseNone 1 [] [] = ⟨[], [], true⟩ := by
  refine ⟨by decide, ?_⟩
  rfl

/-- Claim C10, amended: the final-answer pattern fails to match only when no
occurrence of `Final answer:` is followed by any character at all; a
response that is exactly `Final answer:` matches neither pattern and, on
its iteration, ends the loop with `success = false` and no recorded Step
(first conjunct).  When the marker is followed by one or more characters —
even whitespace only — the pattern matches and the captured group strips
to the empty answer (second conjunct), so the run succeeds with an empty
answer rather than failing. -/
theorem C10_empty_final_answer :
    (finalSearch finalLit = none ∧ actionSearch finalLit = none ∧
      ∀ (llm : List Char → List Char) (registry : List (List Char × Skill))
        (jparse : List Char → Except (List Char) (List (List Char × Json)))
        (n : Nat) (prompt : List Char) (steps : List Step),
        llm prompt = finalLit →
        runLoop llm registry jparse (n + 1) prompt steps = ⟨limitAnswer, steps, false⟩) ∧
    (∀ ws : List Char, ws ≠ [] → (∀ c ∈ ws, isSpaceChar c = true) →
      finalSearch (finalLit ++ ws) = some ws ∧ stripChars (finalGroup ws) = []) := by
  constructor
  · refine ⟨by decide, by decide, ?_⟩
    intro llm registry jparse n prompt steps hp
    have h1 : finalSearch finalLit = none := by decide
    have h2 : actionSearch finalLit = none := by decide
    simp [runLoop, hp, h1, h2]
  · intro ws hne hws
    constructor
    · have key : finalSearch (finalLit ++ ws) =
          some ((finalLit ++ ws).drop finalLit.length) := by
        have hpre : finalLit.isPrefixOf (finalLit ++ ws) = true := by
          rw [ List.isPrefixOf_iff_prefix]
          exact List.prefix_append _ _
        have hne2 : ((finalLit ++ ws).drop finalLit.length).isEmpty = false := by
          rw [List.drop_left]
          cases ws with
          | nil => exact absurd rfl hne
          | cons a l => rfl
        exact finalSearch_cons_found 'F' _ hpre hne2
      rw [List.drop_left] at key
      exact key
    · have ht : ws.dropWhile isSpaceChar = [] :=
        List.dropWhile_eq_nil_iff.mpr (fun x hx => by simp [hws x hx])
      have hg : finalGroup ws = ws.drop (ws.length - 1) := by
        simp [finalGroup, ht]
      rw [hg]
      apply stripChars_all_space
      intro c hc
      exact hws c (List.drop_subset _ _ hc)

/-- Witness for the amended C10: the whitespace tail `[' ']` matches with
empty stripped answer, and the bare `Final answer:` response fails the loop
with zero recorded steps. -/
theorem C10_empty_final_answer_witness :
    (finalSearch (finalLit ++ [' ']) = some [' '] ∧ stripChars (finalGroup [' ']) = []) ∧
    runLoop (fun _ => finalLit) [] jparseNone 1 [] [] = ⟨limitAnswer, [], false⟩ := by
  refine ⟨C10_empty_final_answer.2 [' '] (by decide) (by decide), ?_⟩
  exact C10_empty_final_answer.1.2.2 (fun _ => finalLit) [] jparseNone 0 [] [] rfl

end AgentPy
